import Mathlib

/-!
Verification development for the mdm-service dynamic schema engine.

The TypeScript source is shallowly embedded: the MongoDB store becomes an
explicit `DB` state, async service methods become pure functions returning
`Except Err`, and JavaScript runtime values are modelled by `JSValue`.
Two record engines exist in the repository and are embedded separately:
`SchemaService` (src/modules/schema/schema.service.ts, in part_001) and
`MasterService` (src/modules/master/master.service.ts); the HTTP record
routes of MasterController dispatch to `MasterService`.
-/

/-- Model of a JavaScript number: an exact rational for finite doubles plus
the special values. Rounding of doubles is not modelled; all arithmetic used
by the source (parsing, comparison with 0) is exact at the inputs considered. -/
inductive JSNum
  | finite (q : ℚ)
  | posInf
  | negInf
  | nan
deriving DecidableEq

/-- Scalar JavaScript values. -/
inductive JSPrim
  | undef
  | null
  | boolean (b : Bool)
  | number (n : JSNum)
  | string (s : String)
deriving DecidableEq

/-- JavaScript values as they cross the service boundary. Arrays and objects
are modelled one level deep (elements/values are scalars): the engine treats
`array`/`object` fields opaquely, and master-reference collections are arrays
of ids, so this fragment covers every value the embedded code inspects. -/
inductive JSValue
  | prim (p : JSPrim)
  | array (xs : List JSPrim)
  | object (kvs : List (String × JSPrim))
  | date (t : JSNum)
deriving DecidableEq

abbrev jStr (s : String) : JSValue := .prim (.string s)

abbrev jNum (q : ℚ) : JSValue := .prim (.number (.finite q))

abbrev jBool (b : Bool) : JSValue := .prim (.boolean b)

abbrev jNull : JSValue := .prim .null

abbrev jUndef : JSValue := .prim .undef

def JSNum.isNaN : JSNum → Bool
  | .nan => true
  | _ => false

def JSNum.isFinite : JSNum → Bool
  | .finite _ => true
  | _ => false

/-- JavaScript truthiness (`Boolean(value)` / use of a value in a condition). -/
def JSValue.truthy : JSValue → Bool
  | .prim .undef => false
  | .prim .null => false
  | .prim (.boolean b) => b
  | .prim (.number (.finite q)) => !(q == 0)
  | .prim (.number .nan) => false
  | .prim (.number _) => true
  | .prim (.string s) => !(s == "")
  | _ => true

/-- Model of `String.prototype.toLowerCase` (ASCII range, which is all the
source ever feeds it). -/
def jsToLower (s : String) : String := ⟨s.data.map Char.toLower⟩

def isAsciiDigit (c : Char) : Bool := '0' ≤ c && c ≤ '9'

def digitsToNat : List Char → Nat → Nat
  | [], acc => acc
  | c :: cs, acc => digitsToNat cs (acc * 10 + (c.toNat - '0'.toNat))

def isJSSpace (c : Char) : Bool := c == ' ' || c == '\t' || c == '\n' || c == '\r'

def trimChars (cs : List Char) : List Char :=
  ((cs.dropWhile isJSSpace).reverse.dropWhile isJSSpace).reverse

/-- Exponent suffix of a JS numeric literal: empty, or `e`/`E` with optional
sign and a nonempty digit run. -/
def parseExponentPart (cs : List Char) (q : ℚ) : Option ℚ :=
  match cs with
  | [] => some q
  | e :: rest =>
    if e == 'e' || e == 'E' then
      let signedExpo : List Char → Int → Option ℚ := fun ds sign =>
        if ds.isEmpty || !ds.all isAsciiDigit then none
        else some (q * (10 : ℚ) ^ (sign * (digitsToNat ds 0 : Int)))
      match rest with
      | '+' :: ds => signedExpo ds 1
      | '-' :: ds => signedExpo ds (-1)
      | ds => signedExpo ds 1
    else none

/-- Unsigned decimal numeral with optional fraction and exponent. -/
def parseDecimalCore (cs : List Char) : Option ℚ :=
  let intPart := cs.takeWhile isAsciiDigit
  let rest1 := cs.dropWhile isAsciiDigit
  match rest1 with
  | '.' :: rest2 =>
      let fracPart := rest2.takeWhile isAsciiDigit
      let rest3 := rest2.dropWhile isAsciiDigit
      if intPart.isEmpty && fracPart.isEmpty then none
      else
        parseExponentPart rest3
          ((digitsToNat intPart 0 : ℚ) +
            (digitsToNat fracPart 0 : ℚ) / (10 : ℚ) ^ fracPart.length)
  | _ =>
      if intPart.isEmpty then none
      else parseExponentPart rest1 (digitsToNat intPart 0 : ℚ)

def parseSignedJS (cs : List Char) (neg : Bool) : JSNum :=
  if cs = ['I', 'n', 'f', 'i', 'n', 'i', 't', 'y'] then
    if neg then .negInf else .posInf
  else
    match parseDecimalCore cs with
    | some q => .finite (if neg then -q else q)
    | none => .nan

/-- Model of the JS builtin `Number(string)` on the fragment the source uses:
whitespace is trimmed, the empty string is 0, `Infinity` with optional sign
is recognised, and decimal numerals (with fraction/exponent) parse exactly.
Hex/octal/binary literals are outside the modelled fragment. -/
def parseJSNumber (s : String) : JSNum :=
  match trimChars s.data with
  | [] => .finite 0
  | '+' :: rest => if rest.isEmpty then .nan else parseSignedJS rest false
  | '-' :: rest => if rest.isEmpty then .nan else parseSignedJS rest true
  | cs => parseSignedJS cs false

/-- Model of the JS builtin `Number(value)` (ToNumber). Single-element arrays
convert through their stringified element, other composites are NaN except the
empty array; this matches the builtin on the shallow values of `JSValue`. -/
def toNumber : JSValue → JSNum
  | .prim .undef => .nan
  | .prim .null => .finite 0
  | .prim (.boolean b) => .finite (if b then 1 else 0)
  | .prim (.number n) => n
  | .prim (.string s) => parseJSNumber s
  | .date t => t
  | .array [] => .finite 0
  | .array [.number n] => n
  | .array [.string s] => parseJSNumber s
  | .array [.null] => .finite 0
  | .array [.undef] => .finite 0
  | .array _ => .nan
  | .object _ => .nan

/-- Truncation toward zero used by the Date TimeClip operation. -/
def jsTrunc (q : ℚ) : Int := if 0 ≤ q then ⌊q⌋ else ⌈q⌉

def leapYear (y : Int) : Bool := (y % 4 == 0 && y % 100 != 0) || y % 400 == 0

def daysInMonth (y : Int) (m : Nat) : Nat :=
  if m == 2 then (if leapYear y then 29 else 28)
  else if m == 4 || m == 6 || m == 9 || m == 11 then 30
  else 31

/-- Days from 1970-01-01 to the given civil date (standard civil-from-days
inverse, Hinnant's algorithm). -/
def daysFromCivil (y : Int) (m : Nat) (d : Nat) : Int :=
  let yy : Int := y - (if m ≤ 2 then 1 else 0)
  let era : Int := (if 0 ≤ yy then yy else yy - 399) / 400
  let yoe : Int := yy - era * 400
  let doy : Int := (153 * ((m : Int) + (if 2 < m then -3 else 9)) + 2) / 5 + (d : Int) - 1
  let doe : Int := yoe * 365 + yoe / 4 - yoe / 100 + doy
  era * 146097 + doe - 719468

/-- Model of the JS Date string parser, restricted to the ISO calendar-date
form `YYYY-MM-DD` (parsed as UTC midnight); anything else is Invalid Date.
The source never relies on other date formats. -/
def parseJSDate (s : String) : JSNum :=
  match s.data with
  | [y1, y2, y3, y4, '-', m1, m2, '-', d1, d2] =>
      if [y1, y2, y3, y4, m1, m2, d1, d2].all isAsciiDigit then
        let y : Nat := digitsToNat [y1, y2, y3, y4] 0
        let m : Nat := digitsToNat [m1, m2] 0
        let d : Nat := digitsToNat [d1, d2] 0
        if 1 ≤ m && m ≤ 12 && 1 ≤ d && d ≤ daysInMonth (y : Int) m then
          .finite ((daysFromCivil (y : Int) m d * 86400000 : Int) : ℚ)
        else .nan
      else .nan
  | _ => .nan

/-- Model of `new Date(value).getTime()`: numbers are clipped/truncated per
TimeClip, strings go through the date parser, `null`/booleans coerce through
ToNumber, and composites are Invalid Date (except a single-string array,
which parses its element). -/
def newDateTime : JSValue → JSNum
  | .date t => t
  | .prim (.number (.finite q)) =>
      if |q| ≤ (8640000000000000 : ℚ) then .finite ((jsTrunc q : Int) : ℚ) else .nan
  | .prim (.number _) => .nan
  | .prim (.string s) => parseJSDate s
  | .prim (.boolean b) => .finite (if b then 1 else 0)
  | .prim .null => .finite 0
  | .prim .undef => .nan
  | .array [.string s] => parseJSDate s
  | .array _ => .nan
  | .object _ => .nan

/-- Model of `typeof value === 'object'` (true for null, arrays, plain
objects and Date instances). -/
def JSValue.typeofIsObject : JSValue → Bool
  | .prim .null => true
  | .array _ => true
  | .object _ => true
  | .date _ => true
  | _ => false

/-- Model of JS template-literal stringification of a scalar, used in error
messages. Finite numbers with denominator 1 render as integers; other
rationals use the Lean representation (the source only interpolates ids,
which are strings, into these messages). -/
def JSNum.display : JSNum → String
  | .nan => "NaN"
  | .posInf => "Infinity"
  | .negInf => "-Infinity"
  | .finite q => if q.den == 1 then toString q.num else toString q

def JSPrim.display : JSPrim → String
  | .undef => "undefined"
  | .null => "null"
  | .boolean b => if b then "true" else "false"
  | .number n => n.display
  | .string s => s

def JSValue.display : JSValue → String
  | .prim p => p.display
  | .array xs => String.intercalate "," (xs.map JSPrim.display)
  | .object _ => "[object Object]"
  | .date t => t.display

/-- Enum `FieldType` from src/common/enums/mdm.enum.ts. -/
inductive FieldType
  | string
  | number
  | boolean
  | date
  | object
  | array
  | master
deriving DecidableEq

/-- Enum `RelationshipType` from src/common/enums/mdm.enum.ts. -/
inductive RelationshipType
  | oneToOne
  | oneToMany
  | manyToOne
  | manyToMany
deriving DecidableEq

/-- `FieldDefinition` DTO (create-schema.dto.ts). Optional TS properties are
`Option`s; `required`/`unique` are only ever used through truthiness, so a
missing boolean is modelled by `false`. -/
structure FieldDefinition where
  name : String
  type : FieldType
  required : Bool := false
  unique : Bool := false
  defaultValue : Option JSValue := none
  validationRules : Option (List (String × JSValue)) := none
  masterType : Option String := none
  relationshipType : Option RelationshipType := none
deriving DecidableEq

/-- `CreateSchemaDto` (create-schema.dto.ts). -/
structure CreateSchemaDto where
  name : String
  displayName : String
  fields : List FieldDefinition
  groupId : Option String := none
deriving DecidableEq

/-- Error taxonomy: the Nest exception classes the services throw. -/
inductive Err
  | badRequest (msg : String)
  | notFound (msg : String)
  | internal (msg : String)
deriving DecidableEq

abbrev RecData := List (String × JSValue)

def lookupAssoc {α : Type} (l : List (String × α)) (k : String) : Option α :=
  (l.find? (fun kv => kv.1 == k)).map (fun kv => kv.2)

/-- JS property read `data[k]`: a missing key yields `undefined`. -/
def getJS (r : RecData) (k : String) : JSValue :=
  (lookupAssoc r k).getD jUndef

/-- JS `k in data`: key presence (a key explicitly set to `undefined` counts). -/
def hasKey (r : RecData) (k : String) : Bool :=
  r.any (fun kv => kv.1 == k)

/-- JS property assignment `obj[k] = v`: replaces in place if the key exists,
otherwise appends. -/
def upsertAssoc {α : Type} (l : List (String × α)) (k : String) (v : α) : List (String × α) :=
  if l.any (fun kv => kv.1 == k) then
    l.map (fun kv => if kv.1 == k then (k, v) else kv)
  else l ++ [(k, v)]

/-- JS `delete obj[k]`. -/
def removeAssoc {α : Type} (l : List (String × α)) (k : String) : List (String × α) :=
  l.filter (fun kv => !(kv.1 == k))

def eraseFirstBy {α : Type} (p : α → Bool) : List α → List α
  | [] => []
  | x :: xs => if p x then xs else x :: eraseFirstBy p xs

def requiredMessage (name : String) : String := s!"Field {name} is required"

def numberMessage (name : String) : String := s!"Field {name} must be a valid number"

def dateMessage (name : String) : String := s!"Field {name} must be a valid date"

def arrayMessage (name : String) : String := s!"Field {name} must be an array"

def objectMessage (name : String) : String := s!"Field {name} must be an object"

/-- The `case 'number'` arm of the conversion switch: `Number(value)`, NaN
rejected, the parsed number stored. -/
def convertNumber (name : String) (value : JSValue) : Except Err (Option JSValue) :=
  let num := toNumber value
  if num.isNaN then .error (Err.badRequest (numberMessage name))
  else .ok (some (.prim (.number num)))

/-- The `case 'boolean'` arm: textual values compare case-insensitively to
"true", everything else coerces by truthiness. -/
def convertBoolean (value : JSValue) : JSValue :=
  match value with
  | .prim (.string s) => jBool (jsToLower s == "true")
  | v => jBool v.truthy

/-- The `case 'date'` arm: `new Date(value)`, Invalid Date rejected. -/
def convertDate (name : String) (value : JSValue) : Except Err (Option JSValue) :=
  let t := newDateTime value
  if t.isNaN then .error (Err.badRequest (dateMessage name))
  else .ok (some (.date t))

/-- The `case 'array'` arm: the value must already be an array. -/
def convertArray (name : String) (value : JSValue) : Except Err (Option JSValue) :=
  match value with
  | .array xs => .ok (some (.array xs))
  | _ => .error (Err.badRequest (arrayMessage name))

/-- The `case 'object'` arm: `typeof value` must be 'object'. -/
def convertObject (name : String) (value : JSValue) : Except Err (Option JSValue) :=
  if value.typeofIsObject then .ok (some value)
  else .error (Err.badRequest (objectMessage name))

/-- The `switch (field.type)` statement of the conversion loop of
`createData` (identical in SchemaService.createData and
MasterService.createData); the default branch passes the value through. -/
def convertTypeSwitch (field : FieldDefinition) (value : JSValue) : Except Err (Option JSValue) :=
  match field.type with
  | .number => convertNumber field.name value
  | .boolean => .ok (some (convertBoolean value))
  | .date => convertDate field.name value
  | .array => convertArray field.name value
  | .object => convertObject field.name value
  | .string => .ok (some value)
  | .master => .ok (some value)

/-- One iteration of the type conversion/validation loop of `createData`:
`.ok none` models `continue` (field omitted from the converted payload),
`.ok (some v)` models `convertedData[field.name] = v`. Only the value
`undefined` counts as absent for the skip and required checks; MASTER fields
bypass the type switch. -/
def convertFieldValue (field : FieldDefinition) (value : JSValue) : Except Err (Option JSValue) :=
  if value == jUndef && !field.required then .ok none
  else if field.required && value == jUndef then
    .error (Err.badRequest (requiredMessage field.name))
  else if field.type == .master then .ok (some value)
  else convertTypeSwitch field value

/-- The whole conversion loop of `createData`: iterates the schema's fields
over the incoming payload, accumulating `convertedData`. -/
def convertData (fields : List FieldDefinition) (data : RecData) (acc : RecData) :
    Except Err RecData :=
  match fields with
  | [] => .ok acc
  | f :: rest =>
      match convertFieldValue f (getJS data f.name) with
      | .error e => .error e
      | .ok none => convertData rest data acc
      | .ok (some v) => convertData rest data (upsertAssoc acc f.name v)

/-- Instance type of a built mongoose path (`Model.schema.paths[p].instance`). -/
inductive SlotInstance
  | str
  | num
  | boolean
  | date
  | obj
  | arr
deriving DecidableEq

/-- Default-value mechanism attached to a built path. -/
inductive DefaultSpec
  | noDefault
  | generatedId
  | dateNow
  | value (v : JSValue)
deriving DecidableEq

/-- One entry of a built mongoose schema definition: the storage layout the
accessor builder declares for a field. `isCollection` marks an
array-of-references slot (`[{ type: String, ref }]`). -/
structure PathDef where
  instanceType : SlotInstance
  isCollection : Bool := false
  required : Bool := false
  unique : Bool := false
  ref : Option String := none
  defaultSpec : DefaultSpec := .noDefault
deriving DecidableEq

/-- `getMongooseType` (identical in both services); the switch's default
branch returns `{ type: String }`. -/
def getMongooseType : FieldType → SlotInstance
  | .string => .str
  | .number => .num
  | .boolean => .boolean
  | .date => .date
  | .object => .obj
  | .array => .arr
  | .master => .str

/-- The system-managed paths both builders inject before the author fields:
the derived identifier, timestamps and the soft-delete flags. -/
def baseSchemaPaths (schemaName : String) : List (String × PathDef) :=
  [(jsToLower schemaName ++ "Id",
      { instanceType := .str, required := true, unique := true, defaultSpec := .generatedId }),
   ("createdAt", { instanceType := .date, defaultSpec := .dateNow }),
   ("updatedAt", { instanceType := .date, defaultSpec := .dateNow }),
   ("isActive", { instanceType := .boolean, defaultSpec := .value (jBool true) }),
   ("isDeleted", { instanceType := .boolean, defaultSpec := .value (jBool false) })]

def invalidRelationshipMessage (name : String) : String :=
  s!"Invalid relationship type undefined for field {name}"

/-- The single-reference slot (`{ type: String, required, ref }`) built for a
one-to-one/many-to-one master field (and by MasterService for every master
field). -/
def refSingleSlot (mt : String) (req : Bool) : PathDef :=
  { instanceType := .str, required := req, ref := some mt }

/-- The reference-collection slot (`[{ type: String, ref }]`) built for a
one-to-many/many-to-many master field. -/
def refCollectionSlot (mt : String) : PathDef :=
  { instanceType := .str, isCollection := true, ref := some mt }

/-- The non-master branch of both builders' field loop. -/
def nonMasterFieldPath (acc : List (String × PathDef)) (field : FieldDefinition) :
    List (String × PathDef) :=
  let base : PathDef := { instanceType := getMongooseType field.type }
  let p1 := if field.required then { base with required := true } else base
  let p2 := if field.unique then { p1 with unique := true } else p1
  let p3 := match field.defaultValue with
    | some v => { p2 with defaultSpec := .value v }
    | none => p2
  upsertAssoc acc field.name p3

/-- One iteration of `SchemaService.buildSchemaDefinition`'s field loop: a
MASTER field becomes a single reference slot for one-to-one/many-to-one, a
reference-collection slot for one-to-many/many-to-many, and an unrecognized
relationship type raises a BadRequest. -/
def SchemaService.addFieldPath (acc : List (String × PathDef)) (field : FieldDefinition) :
    Except Err (List (String × PathDef)) :=
  if field.type == .master then
    match field.masterType with
    | none => .error (Err.internal "TypeError: cannot read masterType")
    | some mt =>
      let fieldName := jsToLower mt ++ "Id"
      match field.relationshipType with
      | some .oneToOne | some .manyToOne =>
          .ok (upsertAssoc acc fieldName (refSingleSlot (jsToLower mt) field.required))
      | some .oneToMany | some .manyToMany =>
          .ok (upsertAssoc acc fieldName (refCollectionSlot (jsToLower mt)))
      | none => .error (Err.badRequest (invalidRelationshipMessage field.name))
  else .ok (nonMasterFieldPath acc field)

/-- The `forEach` over the author fields of either builder, threading the
mutated schema-definition object. -/
def buildPathsLoop
    (step : List (String × PathDef) → FieldDefinition → Except Err (List (String × PathDef))) :
    List FieldDefinition → List (String × PathDef) → Except Err (List (String × PathDef))
  | [], acc => .ok acc
  | f :: rest, acc =>
      match step acc f with
      | .error e => .error e
      | .ok acc2 => buildPathsLoop step rest acc2

/-- `SchemaService.buildSchemaDefinition` (part_001 lines 263-342). -/
def SchemaService.buildSchemaDefinition (dto : CreateSchemaDto) :
    Except Err (List (String × PathDef)) :=
  buildPathsLoop SchemaService.addFieldPath dto.fields (baseSchemaPaths dto.name)

/-- One iteration of `MasterService.buildSchemaDefinition`'s field loop
(master.service.ts): every MASTER field becomes a single reference slot,
with no case split on the relationship type. -/
def MasterService.addFieldPath (acc : List (String × PathDef)) (field : FieldDefinition) :
    Except Err (List (String × PathDef)) :=
  if field.type == .master then
    match field.masterType with
    | none => .error (Err.internal "TypeError: cannot read masterType")
    | some mt =>
        .ok (upsertAssoc acc (jsToLower mt ++ "Id") (refSingleSlot (jsToLower mt) field.required))
  else .ok (nonMasterFieldPath acc field)

/-- `MasterService.buildSchemaDefinition`. -/
def MasterService.buildSchemaDefinition (dto : CreateSchemaDto) :
    Except Err (List (String × PathDef)) :=
  buildPathsLoop MasterService.addFieldPath dto.fields (baseSchemaPaths dto.name)

/-- The persistent store and in-process cache state: the `schemas` metadata
collection (each stored document's `schema` field, in insertion order), the
per-schema record collections keyed by collection name, the schema cache
keyed by lower-cased name (its `model` member is derivable from the stored
dto via the builder and is not duplicated here), and the `groups` collection
as the set of existing group ids. -/
structure DB where
  schemas : List CreateSchemaDto
  collections : List (String × List RecData)
  cache : List (String × CreateSchemaDto)
  groups : List String
deriving DecidableEq

def DB.getColl (db : DB) (name : String) : List RecData :=
  (lookupAssoc db.collections name).getD []

def schemaExistsMessage (n : String) : String := s!"Schema {n} already exists"

def schemaNotFoundMessage (n : String) : String := s!"Schema {n} does not exist"

def cacheNotFoundMessage (n : String) : String := s!"Schema {n} not found in cache"

def recordNotFoundMessage (n : String) : String := s!"Record not found in {n}"

def dataNotFoundMessage (id : String) : String := s!"Data with ID {id} not found"

def invalidGroupMessage (g : String) : String :=
  s!"Invalid group ID: {g}. This group ID does not exist in the groups collection."

def masterTypeMissingMessage (name : String) : String :=
  s!"Field {name} is of type MASTER but masterType is not specified"

def relationshipMissingMessage (name : String) : String :=
  s!"Field {name} is of type MASTER but relationshipType is not specified"

def masterNotExistMessage (mt : String) : String :=
  s!"Referenced master {mt} does not exist"

def invalidReferenceMessage (id mt : String) : String :=
  s!"Invalid reference: {id} does not exist in {mt}"

def conflictDeleteMessage (schemaName names : String) : String :=
  s!"Cannot delete schema {schemaName} because it is referenced by other schemas: {names}. Use force=true to delete anyway."

def createdMessage (n : String) : String := s!"Schema {n} created successfully"

def deletedMessage (n : String) : String := s!"Schema {n} deleted successfully"

/-- The master-field name rewrite applied by createSchema/updateSchema before
validation and persistence: a MASTER field's stored name becomes
`${masterType.toLowerCase()}Id`; other fields are untouched. A master field
with no masterType would crash the arrow function (TypeError). -/
def transformMasterField (field : FieldDefinition) : Except Err FieldDefinition :=
  if field.type == .master then
    match field.masterType with
    | some mt => .ok { field with name := jsToLower mt ++ "Id" }
    | none => .error (Err.internal "TypeError: cannot read masterType")
  else .ok field

def transformMasterFieldNames : List FieldDefinition → Except Err (List FieldDefinition)
  | [] => .ok []
  | field :: rest =>
      match transformMasterField field with
      | .error e => .error e
      | .ok f2 =>
          match transformMasterFieldNames rest with
          | .error e => .error e
          | .ok fs => .ok (f2 :: fs)

/-- Models `fieldNames.length !== new Set(fieldNames).size`. -/
def hasDuplicateNames : List String → Bool
  | [] => false
  | x :: xs => xs.contains x || hasDuplicateNames xs

/-- The per-field master checks of `SchemaService.validateSchema`: masterType
present (truthiness, so the empty string also fails), relationshipType
present, and the referenced master already stored under its lower-cased name. -/
def SchemaService.validateMasterFieldList (db : DB) : List FieldDefinition → Except Err Unit
  | [] => .ok ()
  | field :: rest =>
      if field.type == .master then
        match field.masterType with
        | none => .error (Err.badRequest (masterTypeMissingMessage field.name))
        | some mt =>
          if mt == "" then .error (Err.badRequest (masterTypeMissingMessage field.name))
          else
            match field.relationshipType with
            | none => .error (Err.badRequest (relationshipMissingMessage field.name))
            | some _ =>
              if db.schemas.any (fun s => s.name == jsToLower mt) then
                SchemaService.validateMasterFieldList db rest
              else .error (Err.badRequest (masterNotExistMessage mt))
      else SchemaService.validateMasterFieldList db rest

/-- `SchemaService.validateSchema` (part_001 lines 226-261). -/
def SchemaService.validateSchema (db : DB) (dto : CreateSchemaDto) : Except Err Unit :=
  if hasDuplicateNames (dto.fields.map (fun f => f.name)) then
    .error (Err.badRequest "Field names must be unique")
  else SchemaService.validateMasterFieldList db dto.fields

/-- `SchemaService.validateGroupId`. -/
def SchemaService.validateGroupId (db : DB) (groupId : String) : Except Err Unit :=
  if groupId == "" then .ok ()
  else if db.groups.contains groupId then .ok ()
  else .error (Err.badRequest (invalidGroupMessage groupId))

/-- `SchemaService.createSchema` (part_001 lines 170-224). The duplicate
check compares stored names against the lower-cased incoming name; the stored
document keeps the incoming name's original case. The built model is
installed in the cache keyed by the lower-cased name. -/
def SchemaService.createSchema (db : DB) (dto : CreateSchemaDto) : Except Err (DB × String) := do
  let schemaName := jsToLower dto.name
  if db.schemas.any (fun s => s.name == schemaName) then
    throw (Err.badRequest (schemaExistsMessage schemaName))
  let fields2 ← transformMasterFieldNames dto.fields
  let transformed : CreateSchemaDto := { dto with fields := fields2 }
  SchemaService.validateSchema db transformed
  match transformed.groupId with
  | some gid => if !(gid == "") then SchemaService.validateGroupId db gid else pure ()
  | none => pure ()
  let db2 : DB := { db with schemas := db.schemas ++ [transformed] }
  let _ ← SchemaService.buildSchemaDefinition transformed
  let db3 : DB := { db2 with cache := upsertAssoc db2.cache schemaName transformed }
  return (db3, createdMessage schemaName)

/-- `SchemaService.getSchema`: finds the stored document whose `schema.name`
equals the lower-cased request (a case-sensitive store comparison). -/
def SchemaService.getSchema (db : DB) (schemaName : String) : Except Err CreateSchemaDto :=
  match db.schemas.find? (fun s => s.name == jsToLower schemaName) with
  | some doc => .ok doc
  | none => .error (Err.notFound (schemaNotFoundMessage schemaName))

/-- The referencing-schema query of `deleteSchema`: stored schemas holding a
field with `type: 'master'` and `masterType` exactly equal to the lower-cased
name being deleted. -/
def referencingSchemas (db : DB) (lower : String) : List CreateSchemaDto :=
  db.schemas.filter (fun s =>
    s.fields.any (fun f => f.type == .master && f.masterType == some lower))

/-- `SchemaService.deleteSchema` (part_001 lines 775-840): existence check,
reference guard (overridable with `force`), removal of the stored document,
model and cache entry, and — only when forced — the record collection. -/
def SchemaService.deleteSchema (db : DB) (schemaName : String) (force : Bool) :
    Except Err (DB × String) := do
  let lower := jsToLower schemaName
  if !(db.schemas.any (fun s => s.name == lower)) then
    throw (Err.notFound (schemaNotFoundMessage schemaName))
  let referencing := referencingSchemas db lower
  if !referencing.isEmpty && !force then
    throw (Err.badRequest (conflictDeleteMessage schemaName
      (String.intercalate ", " (referencing.map (fun s => s.name)))))
  let schemas2 := eraseFirstBy (fun s => s.name == lower) db.schemas
  let cache2 := removeAssoc db.cache lower
  let collections2 := if force then removeAssoc db.collections lower else db.collections
  return ({ db with schemas := schemas2, cache := cache2, collections := collections2 },
          deletedMessage schemaName)

/-- `Model.exists({ [mtId]: v })` against the target schema's collection. -/
def recordExistsWithId (db : DB) (mt : String) (v : JSValue) : Bool :=
  (db.getColl mt).any (fun r => getJS r (mt ++ "Id") == v)

/-- Sequential existence check of every id in a reference collection,
failing on the first missing id and naming it. -/
def checkIdList (db : DB) (mt : String) : List JSPrim → Except Err Unit
  | [] => .ok ()
  | id :: rest =>
      if recordExistsWithId db mt (.prim id) then checkIdList db mt rest
      else .error (Err.badRequest (invalidReferenceMessage (JSPrim.display id) mt))

/-- One field of `SchemaService.validateMasterReferences`' loop: in update
mode a field not present in the payload is skipped; a required master field
with a falsy value fails; a truthy value is checked against the target
model — arrays id-by-id, anything else as a single reference. Resolving
`connection.models[masterType]` when no such model exists is a crash
(TypeError), modelled as an internal error. -/
def SchemaService.validateFieldRef (db : DB) (isUpdate : Bool) (data : RecData)
    (field : FieldDefinition) : Except Err Unit :=
  if isUpdate && !(hasKey data field.name) then .ok ()
  else if field.type == .master then
    match field.masterType with
    | none => .error (Err.internal "TypeError: cannot read masterType")
    | some mt0 =>
      let mt := jsToLower mt0
      let masterId := getJS data field.name
      if field.required && !masterId.truthy then
        .error (Err.badRequest (requiredMessage field.name))
      else if masterId.truthy then
        if !(lookupAssoc db.cache mt).isSome then
          .error (Err.internal "TypeError: model not registered")
        else
          match masterId with
          | .array ids => checkIdList db mt ids
          | v =>
              if recordExistsWithId db mt v then .ok ()
              else .error (Err.badRequest (invalidReferenceMessage v.display mt))
      else .ok ()
  else .ok ()

def SchemaService.validateFieldRefList (db : DB) (isUpdate : Bool) (data : RecData) :
    List FieldDefinition → Except Err Unit
  | [] => .ok ()
  | f :: rest =>
      match SchemaService.validateFieldRef db isUpdate data f with
      | .error e => .error e
      | .ok _ => SchemaService.validateFieldRefList db isUpdate data rest

/-- `SchemaService.validateMasterReferences` (part_001 lines 363-423): loads
the stored schema by lower-cased name, then checks each master field present
in the payload (all of them when not updating). -/
def SchemaService.validateMasterReferences (db : DB) (schemaName : String) (data : RecData)
    (isUpdate : Bool) : Except Err Unit :=
  match db.schemas.find? (fun s => s.name == jsToLower schemaName) with
  | none => .error (Err.notFound (schemaNotFoundMessage schemaName))
  | some schema => SchemaService.validateFieldRefList db isUpdate data schema.fields

/-- One field of `MasterService.validateMasterReferences`' loop: only fields
whose payload value is truthy are checked (there is no update flag and no
required-value check); the target model is resolved through `getModel`,
which fails NotFound when the schema is not cached. -/
def MasterService.validateFieldRef (db : DB) (data : RecData) (field : FieldDefinition) :
    Except Err Unit :=
  if field.type == .master && (getJS data field.name).truthy then
    match field.masterType with
    | none => .error (Err.internal "TypeError: cannot read masterType")
    | some mt0 =>
      let mt := jsToLower mt0
      if !(lookupAssoc db.cache mt).isSome then
        .error (Err.notFound (schemaNotFoundMessage mt))
      else
        match getJS data field.name with
        | .array ids => checkIdList db mt ids
        | v =>
            if recordExistsWithId db mt v then .ok ()
            else .error (Err.badRequest (invalidReferenceMessage v.display mt))
  else .ok ()

def MasterService.validateFieldRefList (db : DB) (data : RecData) :
    List FieldDefinition → Except Err Unit
  | [] => .ok ()
  | f :: rest =>
      match MasterService.validateFieldRef db data f with
      | .error e => .error e
      | .ok _ => MasterService.validateFieldRefList db data rest

/-- `MasterService.validateMasterReferences` (master.service.ts lines
454-488): schema definition from the cache, then the per-field loop. -/
def MasterService.validateMasterReferences (db : DB) (schemaName : String) (data : RecData) :
    Except Err Unit :=
  match lookupAssoc db.cache (jsToLower schemaName) with
  | none => .error (Err.notFound (cacheNotFoundMessage schemaName))
  | some schemaDef => MasterService.validateFieldRefList db data schemaDef.fields

/-- `SchemaService.createData` up to (not including) the accessor save, which
generates the id and applies stored defaults: model resolution, stripping of
the caller-supplied identifier, the conversion loop, and reference
validation; returns the converted payload that would be saved. -/
def SchemaService.createDataChecked (db : DB) (schemaName : String) (data : RecData) :
    Except Err RecData := do
  let lower := jsToLower schemaName
  if !(lookupAssoc db.cache lower).isSome then
    throw (Err.notFound (schemaNotFoundMessage schemaName))
  let data2 := removeAssoc data (lower ++ "Id")
  match lookupAssoc db.cache lower with
  | none => throw (Err.notFound (cacheNotFoundMessage schemaName))
  | some schemaDef => do
      let converted ← convertData schemaDef.fields data2 []
      SchemaService.validateMasterReferences db schemaName converted false
      return converted

/-- `MasterService.createData` up to (not including) the accessor save;
identical pipeline, but reference validation is MasterService's. -/
def MasterService.createDataChecked (db : DB) (schemaName : String) (data : RecData) :
    Except Err RecData := do
  let lower := jsToLower schemaName
  if !(lookupAssoc db.cache lower).isSome then
    throw (Err.notFound (schemaNotFoundMessage schemaName))
  match lookupAssoc db.cache lower with
  | none => throw (Err.notFound (cacheNotFoundMessage schemaName))
  | some schemaDef => do
      let data2 := removeAssoc data (lower ++ "Id")
      let converted ← convertData schemaDef.fields data2 []
      MasterService.validateMasterReferences db schemaName converted
      return converted

/-- `$set` of a partial document onto a stored record: each supplied field
replaces the stored value in place, new fields are appended. -/
def mergeSet (r : RecData) (data : RecData) : RecData :=
  data.foldl (fun acc kv => upsertAssoc acc kv.1 kv.2) r

def mapFirstBy {α : Type} (p : α → Bool) (f : α → α) : List α → List α
  | [] => []
  | x :: xs => if p x then f x :: xs else x :: mapFirstBy p f xs

/-- `MasterService.update` (master.service.ts lines 428-441): a single
`findOneAndUpdate` by the derived identifier with `$set: data` — the payload
is written as supplied (no identifier strip and no reference validation);
NotFound only when no record matched. -/
def MasterService.update (db : DB) (schemaName : String) (id : String) (data : RecData) :
    Except Err (DB × RecData) :=
  match lookupAssoc db.cache (jsToLower schemaName) with
  | none => .error (Err.notFound (schemaNotFoundMessage schemaName))
  | some _ =>
    let lower := jsToLower schemaName
    let idField := lower ++ "Id"
    let recs := db.getColl lower
    match recs.find? (fun r => getJS r idField == jStr id) with
    | none => .error (Err.notFound (dataNotFoundMessage id))
    | some r0 =>
        let recs2 := mapFirstBy (fun r => getJS r idField == jStr id) (fun r => mergeSet r data) recs
        .ok ({ db with collections := upsertAssoc db.collections lower recs2 }, mergeSet r0 data)

/-- `SchemaService.update` (part_001 lines 626-652): existence check first,
then the caller-supplied identifier is deleted from the payload, master
references of the supplied fields are validated in update mode, and only
then is `$set` applied. -/
def SchemaService.update (db : DB) (schemaName : String) (id : String) (data : RecData) :
    Except Err (DB × RecData) := do
  let lower := jsToLower schemaName
  if !(lookupAssoc db.cache lower).isSome then
    throw (Err.notFound (schemaNotFoundMessage schemaName))
  let idField := lower ++ "Id"
  let recs := db.getColl lower
  match recs.find? (fun r => getJS r idField == jStr id) with
  | none => throw (Err.notFound (recordNotFoundMessage schemaName))
  | some r0 => do
      let data2 := removeAssoc data idField
      SchemaService.validateMasterReferences db schemaName data2 true
      let recs2 := mapFirstBy (fun r => getJS r idField == jStr id) (fun r => mergeSet r data2) recs
      return ({ db with collections := upsertAssoc db.collections lower recs2 }, mergeSet r0 data2)

inductive SortOrder
  | asc
  | desc
deriving DecidableEq

/-- Type rank of the store's cross-type sort order (model of BSON comparison:
missing/undefined lowest, then null, numbers, strings, objects, arrays,
booleans, dates). -/
def bsonTypeRank : JSValue → Nat
  | .prim .undef => 0
  | .prim .null => 1
  | .prim (.number _) => 2
  | .prim (.string _) => 3
  | .object _ => 4
  | .array _ => 5
  | .prim (.boolean _) => 6
  | .date _ => 7

/-- Numeric comparison with NaN sorting lowest among numbers (store model). -/
def jsNumLE (a b : JSNum) : Bool :=
  match a, b with
  | .nan, _ => true
  | _, .nan => false
  | .negInf, _ => true
  | _, .negInf => false
  | .finite p, .finite q => decide (p ≤ q)
  | .finite _, .posInf => true
  | .posInf, .posInf => true
  | .posInf, .finite _ => false

/-- Model of the store's document ordering on one sort key; equal-rank
composites compare equal (their internal order is not relied upon). -/
def bsonLE (a b : JSValue) : Bool :=
  if bsonTypeRank a == bsonTypeRank b then
    match a, b with
    | .prim (.number x), .prim (.number y) => jsNumLE x y
    | .prim (.string x), .prim (.string y) => !(decide (y < x))
    | .prim (.boolean x), .prim (.boolean y) => !x || y
    | .date x, .date y => jsNumLE x y
    | _, _ => true
  else bsonTypeRank a ≤ bsonTypeRank b

def insertSortedBy {α : Type} (le : α → α → Bool) (x : α) : List α → List α
  | [] => [x]
  | y :: ys => if le x y then x :: y :: ys else y :: insertSortedBy le x ys

/-- Executable insertion sort modelling the store's `.sort({key: dir})`. -/
def insertionSortBy {α : Type} (le : α → α → Bool) : List α → List α
  | [] => []
  | x :: xs => insertSortedBy le x (insertionSortBy le xs)

def recSortLE (sort : String) (order : SortOrder) (r1 r2 : RecData) : Bool :=
  match order with
  | .asc => bsonLE (getJS r1 sort) (getJS r2 sort)
  | .desc => bsonLE (getJS r2 sort) (getJS r1 sort)

def sortRecords (sort : String) (order : SortOrder) (recs : List RecData) : List RecData :=
  insertionSortBy (recSortLE sort order) recs

/-- Substring test on character lists (used to model `$regex` with a literal
pattern). -/
def listContainsSub (hay needle : List Char) : Bool :=
  if needle.isPrefixOf hay then true
  else
    match hay with
    | [] => false
    | _ :: t => listContainsSub t needle

/-- `{ field: { $regex: pattern, $options: 'i' } }` with a literal (regex-
metacharacter-free) pattern: matches exactly the string values containing
the pattern case-insensitively; non-string values never match. -/
def regexMatchCI (pattern : String) (v : JSValue) : Bool :=
  match v with
  | .prim (.string s) => listContainsSub (jsToLower s).data (jsToLower pattern).data
  | _ => false

/-- The query object both findAll implementations build: an optional `$or`
of case-insensitive regex clauses plus an exact-match overlay from
`filters` (operator filters beyond exact equality are not modelled). -/
structure MongoQuery where
  orRegex : Option (List (String × String)) := none
  filters : List (String × JSValue) := []
deriving DecidableEq

def matchesQuery (r : RecData) (q : MongoQuery) : Bool :=
  (match q.orRegex with
   | none => true
   | some clauses => clauses.any (fun c => regexMatchCI c.2 (getJS r c.1))) &&
  q.filters.all (fun kv => getJS r kv.1 == kv.2)

structure FindAllResult where
  data : List RecData
  total : Nat
  page : Nat
  limit : Nat
  totalPages : Nat
deriving DecidableEq

/-- `Math.ceil(a / b)` on naturals, for `b > 0`. -/
def ceilDivNat (a b : Nat) : Nat := (a + b - 1) / b

/-- Query construction of `MasterService.findAll` (lines 386-397): when a
truthy search term is given, the `$or` clauses are the two fixed fields
`name` and `description`, regardless of the schema. -/
def MasterService.buildQuery (search : Option String)
    (filters : Option (List (String × JSValue))) : MongoQuery :=
  let q1 : MongoQuery :=
    match search with
    | some s => if s == "" then {} else { orRegex := some [("name", s), ("description", s)] }
    | none => {}
  match filters with
  | some fs => { q1 with filters := fs }
  | none => q1

/-- `MasterService.findAll` (lines 375-415): filter by the built query, sort,
skip `(page-1)*limit`, take `limit`, and return the flat
`{data, total, page, limit, totalPages}` with `totalPages = ceil(total/limit)`. -/
def MasterService.findAll (db : DB) (schemaName : String) (page limit : Nat) (sort : String)
    (order : SortOrder) (search : Option String) (filters : Option (List (String × JSValue))) :
    Except Err FindAllResult :=
  match lookupAssoc db.cache (jsToLower schemaName) with
  | none => .error (Err.notFound (schemaNotFoundMessage schemaName))
  | some _ =>
    let query := MasterService.buildQuery search filters
    let matched := (db.getColl (jsToLower schemaName)).filter (fun r => matchesQuery r query)
    let sorted := sortRecords sort order matched
    .ok { data := (sorted.drop ((page - 1) * limit)).take limit,
          total := matched.length, page := page, limit := limit,
          totalPages := ceilDivNat matched.length limit }

/-- The String-instance paths of a built schema definition —
`Object.keys(Model.schema.paths).filter(p => paths[p].instance === 'String')`.
A reference-collection slot has instance Array, and the mongoose-added `_id`
and `__v` paths are not String-instance, so neither joins the set. -/
def stringPathNames (paths : List (String × PathDef)) : List String :=
  (paths.filter (fun p => p.2.instanceType == .str && !p.2.isCollection)).map (fun p => p.1)

structure FindAllMeta where
  total : Nat
  page : Nat
  limit : Nat
  totalPages : Nat
deriving DecidableEq

structure SchemaFindAllResult where
  data : List RecData
  meta : FindAllMeta
deriving DecidableEq

/-- `SchemaService.findAll` (part_001 lines 559-610): the `$or` clauses range
over the String-instance paths of the cached model's schema (recomputed here
from the cached dto via the builder, which is what built that model), and the
result nests the counts under `meta`. -/
def SchemaService.findAll (db : DB) (schemaName : String) (page limit : Nat) (sort : String)
    (order : SortOrder) (search : Option String) (filters : Option (List (String × JSValue))) :
    Except Err SchemaFindAllResult :=
  match lookupAssoc db.cache (jsToLower schemaName) with
  | none => .error (Err.notFound (schemaNotFoundMessage schemaName))
  | some schemaDef =>
    match SchemaService.buildSchemaDefinition schemaDef with
    | .error e => .error e
    | .ok paths =>
      let q1 : MongoQuery :=
        match search with
        | some s =>
            if s == "" then {}
            else { orRegex := some ((stringPathNames paths).map (fun f => (f, s))) }
        | none => {}
      let query : MongoQuery :=
        match filters with
        | some fs => { q1 with filters := fs }
        | none => q1
      let matched := (db.getColl (jsToLower schemaName)).filter (fun r => matchesQuery r query)
      let sorted := sortRecords sort order matched
      .ok { data := (sorted.drop ((page - 1) * limit)).take limit,
            meta := { total := matched.length, page := page, limit := limit,
                      totalPages := ceilDivNat matched.length limit } }

/-- Claim-side predicate, following the spec's words: some string-typed field
of the schema holds a string containing the search term case-insensitively. -/
def searchMatchesStringField (paths : List (String × PathDef)) (r : RecData) (term : String) :
    Bool :=
  (stringPathNames paths).any (fun f => regexMatchCI term (getJS r f))

/-! Concrete states and payloads used in the example theorems below. -/

def emptyDB : DB := ⟨[], [], [], []⟩

def cityNameField : FieldDefinition := { name := "cityName", type := .string, required := true }

def cityDto : CreateSchemaDto := { name := "city", displayName := "City", fields := [cityNameField] }

def storeNameField : FieldDefinition := { name := "name", type := .string, required := true }

def storeCityRefField : FieldDefinition :=
  { name := "cityId", type := .master, required := true, masterType := some "city",
    relationshipType := some .oneToOne }

def storeDto : CreateSchemaDto :=
  { name := "store", displayName := "Store", fields := [storeNameField, storeCityRefField] }

def cityRec : RecData := [("cityId", jStr "C1"), ("cityName", jStr "Pune")]

def storeRec : RecData := [("storeId", jStr "S1"), ("name", jStr "S One"), ("cityId", jStr "C1")]

def dbCityStore : DB :=
  ⟨[cityDto, storeDto], [("city", [cityRec]), ("store", [storeRec])],
   [("city", cityDto), ("store", storeDto)], []⟩

def storeRecUpdated : RecData :=
  [("storeId", jStr "S1"), ("name", jStr "S Two"), ("cityId", jStr "C1")]

def dbCityStoreUpdated : DB :=
  ⟨[cityDto, storeDto], [("city", [cityRec]), ("store", [storeRecUpdated])],
   [("city", cityDto), ("store", storeDto)], []⟩

def cityUpperDto : CreateSchemaDto := { name := "City", displayName := "City", fields := [] }

def cityLowerDto : CreateSchemaDto := { name := "city", displayName := "City", fields := [] }

def dbAfterUpper : DB := ⟨[cityUpperDto], [], [("city", cityUpperDto)], []⟩

def dbAfterBoth : DB := ⟨[cityUpperDto, cityLowerDto], [], [("city", cityLowerDto)], []⟩

def orderCityRefField : FieldDefinition :=
  { name := "cityId", type := .master, masterType := some "city",
    relationshipType := some .manyToMany }

def orderDto : CreateSchemaDto :=
  { name := "order", displayName := "Order", fields := [orderCityRefField] }

def dbCityOrder : DB :=
  ⟨[cityDto, orderDto], [("city", [cityRec])], [("city", cityDto), ("order", orderDto)], []⟩

def storeRefUpperField : FieldDefinition :=
  { name := "cityId", type := .master, masterType := some "City",
    relationshipType := some .oneToOne }

def storeUpperRefDto : CreateSchemaDto :=
  { name := "store", displayName := "Store", fields := [storeRefUpperField] }

def dbC4 : DB :=
  ⟨[cityUpperDto, storeUpperRefDto], [], [("city", cityUpperDto), ("store", storeUpperRefDto)], []⟩

def aDto : CreateSchemaDto := { name := "a", displayName := "A", fields := [] }

def bRefField : FieldDefinition :=
  { name := "aId", type := .master, masterType := some "a", relationshipType := some .oneToOne }

def bDto : CreateSchemaDto := { name := "b", displayName := "B", fields := [bRefField] }

def aRec : RecData := [("aId", jStr "A1")]

def dbAB : DB := ⟨[aDto, bDto], [("a", [aRec])], [("a", aDto), ("b", bDto)], []⟩

def dbABAfterForce : DB := ⟨[bDto], [], [("b", bDto)], []⟩

def bEmptyDto : CreateSchemaDto := { name := "b", displayName := "B", fields := [] }

def dbB : DB := ⟨[bEmptyDto], [], [("b", bEmptyDto)], []⟩

def aRefUpperBField : FieldDefinition :=
  { name := "ref", type := .master, masterType := some "B", relationshipType := some .oneToOne }

def aDtoUpperB : CreateSchemaDto := { name := "a", displayName := "A", fields := [aRefUpperBField] }

def aDtoUpperBT : CreateSchemaDto :=
  { name := "a", displayName := "A", fields := [{ aRefUpperBField with name := "bId" }] }

def dbBA : DB := ⟨[bEmptyDto, aDtoUpperBT], [], [("b", bEmptyDto), ("a", aDtoUpperBT)], []⟩

def dbC6 : DB := ⟨[cityDto], [("city", [cityRec])], [("city", cityDto)], []⟩

def cityPaths : List (String × PathDef) :=
  baseSchemaPaths "city" ++ [("cityName", ⟨.str, false, true, false, none, .noDefault⟩)]

def priceField : FieldDefinition := { name := "price", type := .number }

def qtyRequiredField : FieldDefinition := { name := "qty", type := .number, required := true }

def xDto : CreateSchemaDto := { name := "x", displayName := "X", fields := [] }

def c9Recs : List RecData := (List.range 25).map (fun i => [("n", jNum (i : ℚ))])

def dbX : DB := ⟨[xDto], [("x", c9Recs)], [("x", xDto)], []⟩

def resX : FindAllResult := ⟨(c9Recs.drop 20).take 10, 25, 3, 10, 3⟩

/-! Helper lemmas. -/

theorem beq_undef_num (n : JSNum) : (JSValue.prim (JSPrim.number n) == jUndef) = false := rfl

theorem beq_undef_bool (b : Bool) : ((jBool b : JSValue) == jUndef) = false := rfl

theorem beq_undef_date (t : JSNum) : (JSValue.date t == jUndef) = false := rfl

theorem beq_undef_arr (xs : List JSPrim) : (JSValue.array xs == jUndef) = false := rfl

/-- With a supplied (non-undefined) value, the conversion loop body reaches
the master passthrough. -/
theorem convertFieldValue_master (field : FieldDefinition) (value : JSValue)
    (hvu : (value == jUndef) = false) (hm : (field.type == FieldType.master) = true) :
    convertFieldValue field value = .ok (some value) := by
  rw [convertFieldValue, hvu]
  simp [hm]

/-- With a supplied (non-undefined) value and a non-master field, the
conversion loop body reaches the type switch. -/
theorem convertFieldValue_not_undef (field : FieldDefinition) (value : JSValue)
    (hvu : (value == jUndef) = false) (hm : (field.type == FieldType.master) = false) :
    convertFieldValue field value = convertTypeSwitch field value := by
  rw [convertFieldValue, hvu]
  simp [hm]

theorem convertBoolean_is_bool (v : JSValue) : ∃ b, convertBoolean v = jBool b := by
  cases v with
  | prim p => cases p <;> exact ⟨_, rfl⟩
  | array xs => exact ⟨_, rfl⟩
  | object kvs => exact ⟨_, rfl⟩
  | date t => exact ⟨_, rfl⟩

/-! Claim theorems. -/

/-- Claim C7 (counterexample): coercing the string "Infinity" into a number
field succeeds and stores positive infinity, which is not finite — so the
coercion does not fail on every non-finite parse, contrary to the claim that
it fails exactly when the parsed result is not a finite number. -/
theorem c7_counterexample_infinity_accepted :
    convertFieldValue priceField (jStr "Infinity") = .ok (some (.prim (.number .posInf)))
    ∧ JSNum.isFinite .posInf = false := by
  exact ⟨rfl, rfl⟩

/-- Claim C7 (amended): for a number field and a supplied (non-undefined) raw
value, the coercion fails naming the field exactly when the numeric parse is
NaN; any non-NaN parse — including the infinities — is stored as the parsed
number. -/
theorem c7_number_coercion_fails_iff_nan (f : FieldDefinition) (v : JSValue)
    (hty : f.type = .number) (hv : (v == jUndef) = false) :
    ((toNumber v).isNaN = true →
      convertFieldValue f v = .error (Err.badRequest (numberMessage f.name)))
    ∧ ((toNumber v).isNaN = false →
      convertFieldValue f v = .ok (some (.prim (.number (toNumber v))))) := by
  have h1 : (v == jUndef && !f.required) = false := by rw [hv]; rfl
  have h2 : (f.required && v == jUndef) = false := by rw [hv]; simp
  constructor <;> intro h <;>
    simp [convertFieldValue, h1, h2, hty, convertTypeSwitch, convertNumber, h]

/-- Claim C7 (witness): the string "7" parses to 7, which is stored. -/
theorem c7_witness : convertFieldValue priceField (jStr "7") = .ok (some (jNum 7)) := by
  exact (c7_number_coercion_fails_iff_nan priceField (jStr "7") rfl rfl).2 rfl

/-- Claim C8: the coercion table is idempotent — whenever coercion accepts a
raw value and stores a converted value, coercing the stored value again
succeeds and returns it unchanged. -/
theorem c8_coercion_idempotent (f : FieldDefinition) (v out : JSValue)
    (h : convertFieldValue f v = .ok (some out)) :
    convertFieldValue f out = .ok (some out) := by
  by_cases hu : (v == jUndef) = true
  · by_cases hr : f.required = true <;>
      simp [convertFieldValue, hu, hr] at h
  · have hv : (v == jUndef) = false := by simpa using hu
    by_cases hm : (f.type == FieldType.master) = true
    · rw [convertFieldValue_master f v hv hm] at h
      have hout : out = v := by simpa using h.symm
      subst hout
      exact convertFieldValue_master f out hv hm
    · have hmf : (f.type == FieldType.master) = false := by simpa using hm
      rw [convertFieldValue_not_undef f v hv hmf] at h
      cases hft : f.type
      · -- string
        simp only [convertTypeSwitch, hft, Except.ok.injEq, Option.some.injEq] at h
        subst h
        rw [convertFieldValue_not_undef f v hv hmf]
        simp [convertTypeSwitch, hft]
      · -- number
        simp only [convertTypeSwitch, hft, convertNumber] at h
        by_cases hn : (toNumber v).isNaN = true
        · rw [if_pos hn] at h
          cases h
        · rw [if_neg hn] at h
          have hout : out = .prim (.number (toNumber v)) := by simpa using h.symm
          subst hout
          rw [convertFieldValue_not_undef f _ (beq_undef_num _) hmf]
          simp only [convertTypeSwitch, hft, convertNumber]
          rw [show toNumber (.prim (.number (toNumber v))) = toNumber v from rfl]
          rw [if_neg hn]
      · -- boolean
        simp only [convertTypeSwitch, hft, Except.ok.injEq, Option.some.injEq] at h
        obtain ⟨b, hb⟩ := convertBoolean_is_bool v
        rw [hb] at h
        subst h
        rw [convertFieldValue_not_undef f _ (beq_undef_bool _) hmf]
        simp only [convertTypeSwitch, hft]
        rfl
      · -- date
        simp only [convertTypeSwitch, hft, convertDate] at h
        by_cases hn : (newDateTime v).isNaN = true
        · rw [if_pos hn] at h
          cases h
        · rw [if_neg hn] at h
          have hout : out = .date (newDateTime v) := by simpa using h.symm
          subst hout
          rw [convertFieldValue_not_undef f _ (beq_undef_date _) hmf]
          simp only [convertTypeSwitch, hft, convertDate]
          rw [show newDateTime (.date (newDateTime v)) = newDateTime v from rfl]
          rw [if_neg hn]
      · -- object
        simp only [convertTypeSwitch, hft, convertObject] at h
        by_cases ho : v.typeofIsObject = true
        · rw [if_pos ho] at h
          have hout : v = out := by simpa using h
          subst hout
          rw [convertFieldValue_not_undef f v hv hmf]
          simp only [convertTypeSwitch, hft, convertObject]
          rw [if_pos ho]
        · rw [if_neg ho] at h
          cases h
      · -- array
        simp only [convertTypeSwitch, hft] at h
        cases v with
        | array xs =>
          rw [show convertArray f.name (.array xs) = .ok (some (.array xs)) from rfl] at h
          have hout : out = .array xs := by simpa using h.symm
          subst hout
          rw [convertFieldValue_not_undef f _ (beq_undef_arr _) hmf]
          simp only [convertTypeSwitch, hft]
          rfl
        | prim p =>
          cases p <;>
            rw [show convertArray f.name (.prim _) = .error (Err.badRequest (arrayMessage f.name)) from rfl] at h <;>
            cases h
        | object kvs =>
          rw [show convertArray f.name (.object kvs) = .error (Err.badRequest (arrayMessage f.name)) from rfl] at h
          cases h
        | date t =>
          rw [show convertArray f.name (.date t) = .error (Err.badRequest (arrayMessage f.name)) from rfl] at h
          cases h
      · -- master (contradicts the branch hypothesis)
        rw [hft] at hmf
        simp at hmf

/-- Claim C8 (witness): the string "5" coerces to the number 5 for a number
field, and coercing the stored 5 again returns it unchanged. -/
theorem c8_witness : convertFieldValue priceField (jNum 5) = .ok (some (jNum 5)) := by
  exact c8_coercion_idempotent priceField (jStr "5") (jNum 5) rfl

/-- Claim C10: with a required non-master field, the required check of
createData's conversion loop fires exactly on the value `undefined`: an
explicit null proceeds into the type switch (so it passes the required
check), and for a number field the null is coerced to 0 and stored. -/
theorem c10_required_null_passes (f : FieldDefinition)
    (hreq : f.required = true) (hm : (f.type == FieldType.master) = false) :
    convertFieldValue f jUndef = .error (Err.badRequest (requiredMessage f.name))
    ∧ (∀ v : JSValue, (v == jUndef) = false → convertFieldValue f v = convertTypeSwitch f v)
    ∧ (f.type = .number → convertFieldValue f jNull = .ok (some (jNum 0))) := by
  refine ⟨?_, ?_, ?_⟩
  · simp [convertFieldValue, hreq]
  · intro v hv
    exact convertFieldValue_not_undef f v hv hm
  · intro hty
    rw [convertFieldValue_not_undef f jNull rfl hm]
    simp [convertTypeSwitch, hty, convertNumber, toNumber, JSNum.isNaN]

/-- Claim C10 (witness): a required number field supplied as null stores 0. -/
theorem c10_witness : convertFieldValue qtyRequiredField jNull = .ok (some (jNum 0)) := by
  exact (c10_required_null_passes qtyRequiredField rfl rfl).2.2 rfl

/-- Claim C2 (counterexample): schema name is not a case-insensitive unique
identity. createSchema("City") stores the name with its original case, and
the duplicate check compares stored names against the lower-cased incoming
name, so a subsequent createSchema("city") also succeeds instead of failing
with a Conflict — two schemas whose names differ only by case now coexist. -/
theorem c2_counterexample_case_conflict_missed :
    SchemaService.createSchema emptyDB cityUpperDto = .ok (dbAfterUpper, createdMessage "city")
    ∧ SchemaService.createSchema dbAfterUpper cityLowerDto =
        .ok (dbAfterBoth, createdMessage "city") := by
  exact ⟨rfl, rfl⟩

/-- Claim C2 (amended): createSchema fails with the already-exists Conflict
precisely against stored schemas whose persisted name equals the lower-cased
incoming name. Names supplied in lower case are therefore case-insensitively
unique, while a stored name containing an upper-case letter is never matched
by the duplicate check. -/
theorem c2_duplicate_check_lowercase_only (db : DB) (dto : CreateSchemaDto)
    (s : CreateSchemaDto) (hs : s ∈ db.schemas) (hname : s.name = jsToLower dto.name) :
    SchemaService.createSchema db dto =
      .error (Err.badRequest (schemaExistsMessage (jsToLower dto.name))) := by
  have hc : db.schemas.any (fun t => t.name == jsToLower dto.name) = true := by
    rw [List.any_eq_true]
    exact ⟨s, hs, by rw [hname]; simp⟩
  simp only [SchemaService.createSchema, hc]
  rfl

/-- Claim C2 (witness): with the lower-cased "city" already stored, creating
"city" again is refused. -/
theorem c2_witness :
    SchemaService.createSchema dbAfterBoth cityLowerDto =
      .error (Err.badRequest (schemaExistsMessage "city")) := by
  exact c2_duplicate_check_lowercase_only dbAfterBoth cityLowerDto cityLowerDto
    (by decide) (by rfl)

/-- Claim C3 (counterexample): the accessor builder behind the record routes
(MasterService.buildSchemaDefinition) declares a SINGLE reference slot for a
many-to-many master field, not a collection slot: for the `order` schema
whose master field has relationshipType many-to-many, the built `cityId`
path has `isCollection = false`. -/
theorem c3_counterexample_many_to_many_single_slot :
    (MasterService.buildSchemaDefinition orderDto).map
      (fun ps => (lookupAssoc ps "cityId").map (fun pd => pd.isCollection)) =
    .ok (some false) := by
  exact rfl

/-- Claim C3 (amended): the schema registry's builder
(SchemaService.buildSchemaDefinition) does store a collection slot for
one-to-many/many-to-many master fields and a single slot for
one-to-one/many-to-one; and reference validation checks a collection id by
id — one missing id among the collection fails, naming a missing id — while
a single-cardinality value is checked as one id. (The record engine's own
builder flattens every master field to a single slot; see the
counterexample.) -/
theorem c3_cardinality_slots_and_per_id_validation :
    (∀ (n dn : String) (f : FieldDefinition) (mt : String),
      f.type = .master → f.masterType = some mt →
      (f.relationshipType = some .oneToMany ∨ f.relationshipType = some .manyToMany) →
      ((baseSchemaPaths n).any (fun p => p.1 == jsToLower mt ++ "Id")) = false →
      SchemaService.buildSchemaDefinition ⟨n, dn, [f], none⟩ =
        .ok (baseSchemaPaths n ++ [(jsToLower mt ++ "Id", refCollectionSlot (jsToLower mt))])
      ∧ (refCollectionSlot (jsToLower mt)).isCollection = true)
    ∧ (∀ (n dn : String) (f : FieldDefinition) (mt : String),
      f.type = .master → f.masterType = some mt →
      (f.relationshipType = some .oneToOne ∨ f.relationshipType = some .manyToOne) →
      ((baseSchemaPaths n).any (fun p => p.1 == jsToLower mt ++ "Id")) = false →
      SchemaService.buildSchemaDefinition ⟨n, dn, [f], none⟩ =
        .ok (baseSchemaPaths n ++ [(jsToLower mt ++ "Id", refSingleSlot (jsToLower mt) f.required)])
      ∧ (refSingleSlot (jsToLower mt) f.required).isCollection = false)
    ∧ (∀ (db : DB) (mt : String) (ids : List JSPrim),
      (∃ i ∈ ids, recordExistsWithId db mt (.prim i) = false) →
      ∃ j ∈ ids, recordExistsWithId db mt (.prim j) = false ∧
        checkIdList db mt ids =
          .error (Err.badRequest (invalidReferenceMessage (JSPrim.display j) mt)))
    ∧ (∀ (db : DB) (data : RecData) (f : FieldDefinition) (mt0 : String) (x : String),
      f.type = .master → f.masterType = some mt0 → getJS data f.name = jStr x →
      (x == "") = false → (lookupAssoc db.cache (jsToLower mt0)).isSome = true →
      MasterService.validateFieldRef db data f =
        (if recordExistsWithId db (jsToLower mt0) (jStr x) then .ok ()
         else .error (Err.badRequest (invalidReferenceMessage x (jsToLower mt0))))) := by
  refine ⟨?_, ?_, ?_, ?_⟩
  · intro n dn f mt hty hmt hrel hany
    refine ⟨?_, rfl⟩
    rcases hrel with hrel | hrel <;>
      simp [SchemaService.buildSchemaDefinition, buildPathsLoop, SchemaService.addFieldPath,
        hty, hmt, hrel, upsertAssoc, hany]
  · intro n dn f mt hty hmt hrel hany
    refine ⟨?_, rfl⟩
    rcases hrel with hrel | hrel <;>
      simp [SchemaService.buildSchemaDefinition, buildPathsLoop, SchemaService.addFieldPath,
        hty, hmt, hrel, upsertAssoc, hany]
  · intro db mt ids hex
    induction ids with
    | nil =>
        obtain ⟨i, hi, _⟩ := hex
        cases hi
    | cons a rest ih =>
        by_cases ha : recordExistsWithId db mt (.prim a) = true
        · obtain ⟨i, hi, hmiss⟩ := hex
          rcases List.mem_cons.mp hi with hi1 | hi2
          · rw [hi1] at hmiss
            rw [ha] at hmiss
            cases hmiss
          · obtain ⟨j, hj, hjm, hres⟩ := ih ⟨i, hi2, hmiss⟩
            refine ⟨j, List.mem_cons_of_mem _ hj, hjm, ?_⟩
            rw [checkIdList, if_pos ha, hres]
        · have ha2 : recordExistsWithId db mt (.prim a) = false := by simpa using ha
          refine ⟨a, List.mem_cons_self _ _, ha2, ?_⟩
          rw [checkIdList, if_neg (by simp [ha2])]
  · intro db data f mt0 x hty hmt hget hx hcache
    simp only [MasterService.validateFieldRef, hty, hmt, hget, hx, hcache, JSValue.truthy]
    rfl

/-- Claim C3 (witness): creating an `order` record whose many-to-many city
reference list contains the existing id "C1" and the missing id "ghost"
fails naming "ghost"; the per-id check itself reports "ghost". -/
theorem c3_witness :
    MasterService.createDataChecked dbCityOrder "order"
        [("cityId", JSValue.array [.string "C1", .string "ghost"])] =
      .error (Err.badRequest (invalidReferenceMessage "ghost" "city"))
    ∧ checkIdList dbCityOrder "city" [.string "C1", .string "ghost"] =
      .error (Err.badRequest (invalidReferenceMessage "ghost" "city")) := by
  refine ⟨by rfl, ?_⟩
  obtain ⟨j, hj, hjm, hres⟩ :=
    c3_cardinality_slots_and_per_id_validation.2.2.1 dbCityOrder "city"
      [.string "C1", .string "ghost"] ⟨.string "ghost", by decide, by decide⟩
  have hj2 : j = .string "ghost" := by
    rcases List.mem_cons.mp hj with h | h
    · exfalso
      rw [h] at hjm
      exact absurd hjm (by decide)
    · rcases List.mem_cons.mp h with h2 | h2
      · exact h2
      · cases h2
  rw [hj2] at hres
  exact hres

theorem lookupAssoc_removeAssoc {α : Type} (l : List (String × α)) (k : String) :
    lookupAssoc (removeAssoc l k) k = none := by
  induction l with
  | nil => rfl
  | cons kv rest ih =>
    by_cases h : (kv.1 == k) = true
    · simp only [removeAssoc, List.filter_cons, h, Bool.not_true, Bool.false_eq_true, if_false]
      exact ih
    · have h2 : (kv.1 == k) = false := by simpa using h
      simp only [removeAssoc, lookupAssoc, List.filter_cons, List.find?_cons, h2,
        Bool.not_false, if_true]
      exact ih

theorem eraseFirstBy_all_not {α : Type} (p : α → Bool) (l : List α)
    (h : (l.filter p).length ≤ 1) :
    ((eraseFirstBy p l).all (fun x => !(p x))) = true := by
  induction l with
  | nil => rfl
  | cons a rest ih =>
    by_cases ha : p a = true
    · rw [eraseFirstBy, if_pos ha]
      have hz : rest.filter p = [] := by
        rw [List.filter_cons, if_pos ha] at h
        simp only [List.length_cons] at h
        exact List.length_eq_zero.mp (by omega)
      rw [List.all_eq_true]
      intro x hx
      by_cases hpx : p x = true
      · exact absurd (List.mem_filter.mpr ⟨hx, hpx⟩) (by rw [hz]; exact List.not_mem_nil x)
      · simp [hpx]
    · have ha2 : p a = false := by simpa using ha
      rw [eraseFirstBy, if_neg (by simp [ha2])]
      rw [List.all_cons]
      have hrest : (rest.filter p).length ≤ 1 := by
        rw [List.filter_cons, if_neg (by simp [ha2])] at h
        exact h
      rw [ih hrest]
      simp [ha2]

/-- Claim C4 (counterexample): schema "City" (persisted with its original
case) is referenced by schema "store" via a MASTER field whose masterType
equals "City" — exactly the claim's premise — yet deleteSchema("City")
without force fails NotFound rather than Conflict listing "store": the
existence check compares stored names against the lower-cased argument. -/
theorem c4_counterexample_mixed_case_not_conflict :
    SchemaService.deleteSchema dbC4 "City" false =
      .error (Err.notFound (schemaNotFoundMessage "City")) := by
  exact rfl

/-- Claim C4 (amended): for a schema A whose stored name is lower-case,
referenced by a schema B through a MASTER field with masterType equal to A's
name, deleteSchema(A) without force fails with the Conflict message listing
the referencing schema names (B among them); deleteSchema(A, force) succeeds
and removes A's stored definition, A's cache entry and A's record
collection. -/
theorem c4_delete_schema_reference_guard (db : DB) (A B : CreateSchemaDto)
    (f : FieldDefinition) (hA : A ∈ db.schemas) (hlow : jsToLower A.name = A.name)
    (hB : B ∈ db.schemas) (hf : f ∈ B.fields)
    (hft : f.type = .master) (hmt : f.masterType = some A.name)
    (huniq : (db.schemas.filter (fun s => s.name == A.name)).length ≤ 1) :
    (SchemaService.deleteSchema db A.name false =
       .error (Err.badRequest (conflictDeleteMessage A.name
         (String.intercalate ", " ((referencingSchemas db A.name).map (fun s => s.name)))))
     ∧ B.name ∈ (referencingSchemas db A.name).map (fun s => s.name))
    ∧ (SchemaService.deleteSchema db A.name true =
        .ok (⟨eraseFirstBy (fun s => s.name == A.name) db.schemas,
              removeAssoc db.collections A.name,
              removeAssoc db.cache A.name, db.groups⟩, deletedMessage A.name)
       ∧ ((eraseFirstBy (fun s => s.name == A.name) db.schemas).all
            (fun s => !(s.name == A.name))) = true
       ∧ lookupAssoc (removeAssoc db.cache A.name) A.name = none
       ∧ lookupAssoc (removeAssoc db.collections A.name) A.name = none) := by
  have hBmem : B ∈ referencingSchemas db A.name := by
    refine List.mem_filter.mpr ⟨hB, ?_⟩
    rw [List.any_eq_true]
    exact ⟨f, hf, by simp [hft, hmt]⟩
  have hany : db.schemas.any (fun s => s.name == A.name) = true := by
    rw [List.any_eq_true]
    exact ⟨A, hA, by simp⟩
  have hne : (referencingSchemas db A.name).isEmpty = false := by
    cases hrs : referencingSchemas db A.name with
    | nil => rw [hrs] at hBmem; cases hBmem
    | cons x xs => rfl
  refine ⟨⟨?_, List.mem_map_of_mem _ hBmem⟩, ?_, ?_, ?_, ?_⟩
  · simp only [SchemaService.deleteSchema, hlow, hany, hne]
    rfl
  · simp only [SchemaService.deleteSchema, hlow, hany, hne]
    rfl
  · exact eraseFirstBy_all_not _ _ huniq
  · exact lookupAssoc_removeAssoc _ _
  · exact lookupAssoc_removeAssoc _ _

/-- Claim C4 (witness): with lower-case schema "a" referenced by "b",
delete without force is refused listing "b"; the forced delete succeeds and
drops the definition, the cache entry and the "a" record collection. -/
theorem c4_witness :
    SchemaService.deleteSchema dbAB "a" false =
      .error (Err.badRequest (conflictDeleteMessage "a" "b"))
    ∧ SchemaService.deleteSchema dbAB "a" true = .ok (dbABAfterForce, deletedMessage "a")
    ∧ lookupAssoc dbABAfterForce.collections "a" = none := by
  obtain ⟨⟨h1, _⟩, h2, _, _, h4⟩ := c4_delete_schema_reference_guard dbAB aDto bDto bRefField
    (by decide) (by rfl) (by decide) (by decide) rfl rfl (by decide)
  exact ⟨h1, h2, h4⟩

theorem exceptOkBind {ε α β : Type} (a : α) (k : α → Except ε β) :
    ((Except.ok a : Except ε α) >>= k) = k a := rfl

theorem exceptPureBind {ε α β : Type} (a : α) (k : α → Except ε β) :
    ((pure a : Except ε α) >>= k) = k a := rfl

theorem find?_append_of_none {α : Type} (p : α → Bool) (l1 l2 : List α)
    (h : l1.find? p = none) : (l1 ++ l2).find? p = l2.find? p := by
  induction l1 with
  | nil => rfl
  | cons a rest ih =>
    by_cases hpa : p a = true
    · rw [List.find?_cons_of_pos _ hpa] at h
      cases h
    · rw [List.find?_cons_of_neg _ hpa] at h
      rw [List.cons_append, List.find?_cons_of_neg _ hpa]
      exact ih h

/-- Every master field surviving the name rewrite carries a masterType and
the derived `${masterType.toLowerCase()}Id` name. -/
theorem transformMasterFieldNames_master_names (fields fields2 : List FieldDefinition)
    (h : transformMasterFieldNames fields = .ok fields2) :
    ∀ f ∈ fields2, f.type = .master →
      ∃ mt, f.masterType = some mt ∧ f.name = jsToLower mt ++ "Id" := by
  induction fields generalizing fields2 with
  | nil =>
    cases h
    intro f hf
    cases hf
  | cons a rest ih =>
    rw [transformMasterFieldNames] at h
    cases hta : transformMasterField a with
    | error e => rw [hta] at h; cases h
    | ok f2 =>
      rw [hta] at h
      cases htr : transformMasterFieldNames rest with
      | error e => rw [htr] at h; cases h
      | ok fs =>
        rw [htr] at h
        cases h
        intro f hf
        rcases List.mem_cons.mp hf with rfl | hf2
        · intro hft
          rw [transformMasterField] at hta
          by_cases hma : (a.type == FieldType.master) = true
          · rw [if_pos hma] at hta
            cases hmt : a.masterType with
            | none => rw [hmt] at hta; cases hta
            | some mt =>
              rw [hmt] at hta
              cases hta
              exact ⟨mt, rfl, rfl⟩
          · rw [if_neg hma] at hta
            cases hta
            exact absurd (by rw [hft] : (a.type == FieldType.master) = (FieldType.master == FieldType.master)) (by simpa using hma)
        · exact ih fs htr f hf2

/-- Inversion of a successful createSchema: the duplicate check was clear,
the field rewrite succeeded, and the stored document list was extended with
the transformed definition. -/
theorem createSchema_ok_shape (db : DB) (dto : CreateSchemaDto) (db2 : DB) (m : String)
    (h : SchemaService.createSchema db dto = .ok (db2, m)) :
    (db.schemas.any (fun s => s.name == jsToLower dto.name)) = false ∧
    ∃ fields2, transformMasterFieldNames dto.fields = .ok fields2 ∧
      db2.schemas = db.schemas ++ [{ dto with fields := fields2 }] := by
  obtain ⟨dn, dd, df, dg⟩ := dto
  simp only [SchemaService.createSchema] at h
  split at h
  · exact Except.noConfusion h
  next hc =>
    have hc2 : (db.schemas.any fun s => s.name == jsToLower dn) = false := by
      simpa using hc
    refine ⟨hc2, ?_⟩
    simp only [exceptPureBind] at h
    cases htr : transformMasterFieldNames df with
    | error e =>
        rw [htr] at h
        exact Except.noConfusion h
    | ok fields2 =>
        rw [htr] at h
        simp only [exceptOkBind] at h
        refine ⟨fields2, rfl, ?_⟩
        cases hv : SchemaService.validateSchema db
            { name := dn, displayName := dd, fields := fields2, groupId := dg } with
        | error e => rw [hv] at h; exact Except.noConfusion h
        | ok u =>
            rw [hv] at h
            simp only [exceptOkBind] at h
            split at h
            next gid =>
              split at h
              next hgid =>
                cases hvg : SchemaService.validateGroupId db gid with
                | error e => rw [hvg] at h; exact Except.noConfusion h
                | ok u2 =>
                    rw [hvg] at h
                    simp only [exceptOkBind] at h
                    cases hb : SchemaService.buildSchemaDefinition
                        { name := dn, displayName := dd, fields := fields2,
                          groupId := some gid } with
                    | error e => rw [hb] at h; exact Except.noConfusion h
                    | ok paths =>
                        rw [hb] at h
                        simp only [exceptOkBind] at h
                        exact (congrArg (fun p => (Prod.fst p).schemas) (Except.ok.inj h)).symm
              next hgid =>
                cases hb : SchemaService.buildSchemaDefinition
                    { name := dn, displayName := dd, fields := fields2,
                      groupId := some gid } with
                | error e => rw [hb] at h; exact Except.noConfusion h
                | ok paths =>
                    rw [hb] at h
                    simp only [exceptOkBind] at h
                    exact (congrArg (fun p => (Prod.fst p).schemas) (Except.ok.inj h)).symm
            next =>
              cases hb : SchemaService.buildSchemaDefinition
                  { name := dn, displayName := dd, fields := fields2, groupId := none } with
              | error e => rw [hb] at h; exact Except.noConfusion h
              | ok paths =>
                  rw [hb] at h
                  simp only [exceptOkBind] at h
                  exact (congrArg (fun p => (Prod.fst p).schemas) (Except.ok.inj h)).symm

/-- Claim C5 (counterexample): with schema "b" stored, creating schema "a"
holding a master field with masterType "B" succeeds, and getSchema("a")
returns the definition whose master field is named "bId" — the lower-cased
derivation — not "BId" as `${masterType}Id` would read. -/
theorem c5_counterexample_uppercase_master_type :
    SchemaService.createSchema dbB aDtoUpperB = .ok (dbBA, createdMessage "a")
    ∧ (SchemaService.getSchema dbBA "a").map (fun sch => sch.fields.map (fun f => f.name)) =
        .ok ["bId"]
    ∧ ("bId" == "BId") = false := by
  exact ⟨rfl, rfl, rfl⟩

/-- Claim C5 (amended): for a schema definition whose name is already
lower-case, a successful createSchema followed by getSchema returns a
definition in which every MASTER field is named
`${masterType.toLowerCase()}Id`. -/
theorem c5_master_field_names_lowercase (db : DB) (dto : CreateSchemaDto) (db2 : DB)
    (m : String) (h : SchemaService.createSchema db dto = .ok (db2, m))
    (hlow : jsToLower dto.name = dto.name) :
    ∃ fields2, transformMasterFieldNames dto.fields = .ok fields2 ∧
      SchemaService.getSchema db2 dto.name = .ok { dto with fields := fields2 } ∧
      (∀ f ∈ fields2, f.type = .master →
        ∃ mt, f.masterType = some mt ∧ f.name = jsToLower mt ++ "Id") := by
  obtain ⟨hany, fields2, htr, hschemas⟩ := createSchema_ok_shape db dto db2 m h
  refine ⟨fields2, htr, ?_, transformMasterFieldNames_master_names dto.fields fields2 htr⟩
  have hnone : db.schemas.find? (fun s => s.name == jsToLower dto.name) = none := by
    rw [List.find?_eq_none]
    intro x hx
    have := List.any_eq_false.mp hany x hx
    simpa using this
  have hfind : db2.schemas.find? (fun s => s.name == jsToLower dto.name) =
      some { dto with fields := fields2 } := by
    rw [hschemas, find?_append_of_none _ _ _ hnone]
    rw [List.find?_cons_of_pos]
    rw [hlow]
    simp
  rw [SchemaService.getSchema, hfind]

/-- Claim C5 (witness): for the lower-case schema "a" referencing master "B",
getSchema returns the transformed definition and its field list is ["bId"]. -/
theorem c5_witness :
    SchemaService.getSchema dbBA "a" = .ok aDtoUpperBT
    ∧ aDtoUpperBT.fields.map (fun f => f.name) = ["bId"] := by
  obtain ⟨fields2, htr, hg, hm⟩ := c5_master_field_names_lowercase dbB aDtoUpperB dbBA
    (createdMessage "a") rfl rfl
  have hf2 : fields2 = aDtoUpperBT.fields := by
    have h0 : transformMasterFieldNames aDtoUpperB.fields = .ok aDtoUpperBT.fields := rfl
    rw [h0] at htr
    exact (Except.ok.inj htr).symm
  rw [hf2] at hg
  exact ⟨hg, rfl⟩

theorem any_map_eq {α β : Type} (l : List α) (f : α → β) (p : β → Bool) :
    (l.map f).any p = l.any (fun x => p (f x)) := by
  induction l with
  | nil => rfl
  | cons a rest ih => simp [List.any_cons, ih]

/-- Claim C6 (counterexample): the findAll behind the record routes
(MasterService.findAll) searches the fixed fields `name` and `description`
whatever the schema: searching "pune" over the city schema returns nothing,
although the record's string-typed field cityName contains "pune"
case-insensitively and the claim requires it to match. -/
theorem c6_counterexample_hardcoded_search_fields :
    MasterService.findAll dbC6 "city" 1 10 "createdAt" .desc (some "pune") none =
      .ok { data := [], total := 0, page := 1, limit := 10, totalPages := 0 }
    ∧ (SchemaService.buildSchemaDefinition cityDto).map
        (fun ps => searchMatchesStringField ps cityRec "pune") = .ok true := by
  exact ⟨rfl, rfl⟩

/-- Claim C6 (amended): the schema registry's findAll (SchemaService.findAll)
builds the search as a case-insensitive substring OR across exactly the
String-instance paths of the schema: a record enters the result set if and
only if one of those paths holds a string containing the term
case-insensitively, and the listing is the sorted/paginated image of exactly
those records. (The record engine's findAll instead always searches the
fixed fields `name`/`description`; see the counterexample.) -/
theorem c6_schema_search_string_fields (db : DB) (schemaName : String) (page limit : Nat)
    (sort : String) (order : SortOrder) (term : String) (sd : CreateSchemaDto)
    (paths : List (String × PathDef))
    (hc : lookupAssoc db.cache (jsToLower schemaName) = some sd)
    (hb : SchemaService.buildSchemaDefinition sd = .ok paths)
    (ht : (term == "") = false) :
    (∀ r : RecData,
      matchesQuery r
          { orRegex := some ((stringPathNames paths).map (fun f => (f, term))), filters := [] }
        = searchMatchesStringField paths r term)
    ∧ SchemaService.findAll db schemaName page limit sort order (some term) none =
        .ok { data := ((sortRecords sort order ((db.getColl (jsToLower schemaName)).filter
                (fun r => searchMatchesStringField paths r term))).drop
                  ((page - 1) * limit)).take limit,
              meta := { total := ((db.getColl (jsToLower schemaName)).filter
                          (fun r => searchMatchesStringField paths r term)).length,
                        page := page, limit := limit,
                        totalPages := ceilDivNat ((db.getColl (jsToLower schemaName)).filter
                          (fun r => searchMatchesStringField paths r term)).length limit } } := by
  have hmatch : ∀ r : RecData,
      matchesQuery r
          { orRegex := some ((stringPathNames paths).map (fun f => (f, term))), filters := [] }
        = searchMatchesStringField paths r term := by
    intro r
    simp only [matchesQuery, searchMatchesStringField, List.all_nil, Bool.and_true]
    rw [any_map_eq]
  refine ⟨hmatch, ?_⟩
  have hfilter : ((db.getColl (jsToLower schemaName)).filter (fun r => matchesQuery r
        { orRegex := some ((stringPathNames paths).map (fun f => (f, term))), filters := [] }))
      = ((db.getColl (jsToLower schemaName)).filter
          (fun r => searchMatchesStringField paths r term)) :=
    List.filter_congr (fun x _ => hmatch x)
  simp only [SchemaService.findAll, hc, hb, ht, Bool.false_eq_true, if_false]
  rw [hfilter]

/-- Claim C6 (witness): searching "pune" over the city schema through the
schema registry's findAll returns exactly the record whose string-typed
cityName field contains the term case-insensitively. -/
theorem c6_witness :
    SchemaService.findAll dbC6 "city" 1 10 "createdAt" .desc (some "pune") none =
      .ok { data := [cityRec],
            meta := { total := 1, page := 1, limit := 10, totalPages := 1 } } := by
  have h := (c6_schema_search_string_fields dbC6 "city" 1 10 "createdAt" .desc "pune" cityDto
    cityPaths rfl rfl rfl).2
  exact h.trans (by rfl)

theorem insertSortedBy_length {α : Type} (le : α → α → Bool) (x : α) (l : List α) :
    (insertSortedBy le x l).length = l.length + 1 := by
  induction l with
  | nil => rfl
  | cons y ys ih =>
    rw [insertSortedBy]
    by_cases h : le x y = true
    · rw [if_pos h]
      rfl
    · rw [if_neg h]
      simp [List.length_cons, ih]

theorem insertionSortBy_length {α : Type} (le : α → α → Bool) (l : List α) :
    (insertionSortBy le l).length = l.length := by
  induction l with
  | nil => rfl
  | cons x xs ih =>
    rw [insertionSortBy, insertSortedBy_length, ih]
    rfl

theorem sortRecords_length (sort : String) (order : SortOrder) (recs : List RecData) :
    (sortRecords sort order recs).length = recs.length :=
  insertionSortBy_length _ _

/-- `(t + L - 1) / L` is the ceiling of `t / L` for positive `L`: it is the
least number of `L`-sized pages covering `t` records. -/
theorem ceilDivNat_bounds (t L : Nat) (hL : 1 ≤ L) :
    t ≤ ceilDivNat t L * L ∧ ceilDivNat t L * L < t + L := by
  have hdm := Nat.div_add_mod (t + L - 1) L
  have hmod : (t + L - 1) % L < L := Nat.mod_lt _ (by omega)
  rw [ceilDivNat]
  rw [Nat.mul_comm] at hdm
  set q := (t + L - 1) / L with hq
  set r := (t + L - 1) % L with hr
  set P := q * L with hP
  omega

/-- Claim C9: MasterService.findAll skips `(page-1)*limit` of the sorted
records, returns at most `limit` of them, reports the full count, and
`totalPages = (total + limit - 1) / limit`, which is exactly
`ceil(total/limit)`: the least number of pages covering all records. -/
theorem c9_pagination (db : DB) (schemaName : String) (page limit : Nat) (sort : String)
    (order : SortOrder) (res : FindAllResult) (_hp : 1 ≤ page) (hl : 1 ≤ limit)
    (h : MasterService.findAll db schemaName page limit sort order none none = .ok res) :
    res.data = ((sortRecords sort order (db.getColl (jsToLower schemaName))).drop
        ((page - 1) * limit)).take limit
    ∧ res.total = (db.getColl (jsToLower schemaName)).length
    ∧ res.data.length = min limit (res.total - (page - 1) * limit)
    ∧ res.page = page ∧ res.limit = limit
    ∧ res.totalPages = (res.total + limit - 1) / limit
    ∧ res.total ≤ res.totalPages * limit
    ∧ res.totalPages * limit < res.total + limit := by
  simp only [MasterService.findAll] at h
  cases hc : lookupAssoc db.cache (jsToLower schemaName) with
  | none => rw [hc] at h; exact Except.noConfusion h
  | some sd =>
    rw [hc] at h
    have hfilt : (db.getColl (jsToLower schemaName)).filter
        (fun r => matchesQuery r (MasterService.buildQuery none none)) =
        db.getColl (jsToLower schemaName) :=
      List.filter_eq_self.mpr (fun a _ => rfl)
    rw [hfilt] at h
    have h2 : res =
        (⟨((sortRecords sort order (db.getColl (jsToLower schemaName))).drop
            ((page - 1) * limit)).take limit,
          (db.getColl (jsToLower schemaName)).length, page, limit,
          ceilDivNat (db.getColl (jsToLower schemaName)).length limit⟩ : FindAllResult) :=
      (Except.ok.inj h).symm
    subst h2
    refine ⟨rfl, rfl, ?_, rfl, rfl, rfl, ?_, ?_⟩
    · rw [List.length_take, List.length_drop, sortRecords_length]
    · exact (ceilDivNat_bounds _ _ hl).1
    · exact (ceilDivNat_bounds _ _ hl).2

/-- Claim C9 (witness): with 25 stored records, limit 10 and page 3, findAll
returns 5 records and totalPages 3. -/
theorem c9_witness : resX.data.length = 5 ∧ resX.totalPages = 3 := by
  obtain ⟨-, -, hlen, -, -, htp, -, -⟩ := c9_pagination dbX "x" 3 10 "createdAt" .desc resX
    (by decide) (by decide) (by rfl)
  constructor
  · rw [hlen]
    rfl
  · rw [htp]
    rfl

/-- Claim C1 (counterexample): the update behind the HTTP record route
(MasterService.update) neither validates references nor strips the
identifier: updating the store record with a cityId that exists in no city
record succeeds and writes the dangling reference (the claim requires a
Validation failure), and a caller-supplied storeId overwrites the derived
identifier (the claim requires it to be stripped). -/
theorem c1_counterexample_master_update_skips_checks :
    (MasterService.update dbCityStore "store" "S1" [("cityId", jStr "ghost")]).map
      (fun r => getJS r.2 "cityId") = .ok (jStr "ghost")
    ∧ recordExistsWithId dbCityStore "city" (jStr "ghost") = false
    ∧ (MasterService.update dbCityStore "store" "S1" [("storeId", jStr "HACK")]).map
      (fun r => getJS r.2 "storeId") = .ok (jStr "HACK") := by
  exact ⟨rfl, rfl, rfl⟩

/-- Claim C1 (amended): SchemaService.update follows the claimed pipeline:
absent target record fails NotFound; with an existing record the result is
exactly reference-validation of the identifier-stripped payload in update
mode followed by a merge-write of only the supplied fields; update-mode
validation skips every field not present in the payload; and a present
MASTER field whose target id does not exist fails with the Validation
message naming it. (The update wired to the record routes skips the strip
and the validation; see the counterexample.) -/
theorem c1_schema_update_pipeline (db : DB) (schemaName id : String) (payload : RecData)
    (hcache : (lookupAssoc db.cache (jsToLower schemaName)).isSome = true) :
    ((db.getColl (jsToLower schemaName)).find?
        (fun r => getJS r (jsToLower schemaName ++ "Id") == jStr id) = none →
      SchemaService.update db schemaName id payload =
        .error (Err.notFound (recordNotFoundMessage schemaName)))
    ∧ (∀ r0, (db.getColl (jsToLower schemaName)).find?
        (fun r => getJS r (jsToLower schemaName ++ "Id") == jStr id) = some r0 →
      SchemaService.update db schemaName id payload =
        (SchemaService.validateMasterReferences db schemaName
            (removeAssoc payload (jsToLower schemaName ++ "Id")) true).bind
          (fun _ => .ok
            (⟨db.schemas,
              upsertAssoc db.collections (jsToLower schemaName)
                (mapFirstBy (fun r => getJS r (jsToLower schemaName ++ "Id") == jStr id)
                  (fun r => mergeSet r (removeAssoc payload (jsToLower schemaName ++ "Id")))
                  (db.getColl (jsToLower schemaName))),
              db.cache, db.groups⟩,
             mergeSet r0 (removeAssoc payload (jsToLower schemaName ++ "Id")))))
    ∧ (∀ (fields : List FieldDefinition) (data : RecData),
        SchemaService.validateFieldRefList db true data fields =
          SchemaService.validateFieldRefList db true data
            (fields.filter (fun f => hasKey data f.name)))
    ∧ (∀ (data : RecData) (f : FieldDefinition) (mt0 x : String),
        f.type = .master → f.masterType = some mt0 → hasKey data f.name = true →
        getJS data f.name = jStr x → (x == "") = false →
        (lookupAssoc db.cache (jsToLower mt0)).isSome = true →
        recordExistsWithId db (jsToLower mt0) (jStr x) = false →
        SchemaService.validateFieldRef db true data f =
          .error (Err.badRequest (invalidReferenceMessage x (jsToLower mt0)))) := by
  have hnot : (!(lookupAssoc db.cache (jsToLower schemaName)).isSome) = false := by
    rw [hcache]
    rfl
  refine ⟨?_, ?_, ?_, ?_⟩
  · intro hfind
    simp only [SchemaService.update, hnot, Bool.false_eq_true, if_false, exceptPureBind]
    rw [hfind]
    rfl
  · intro r0 hfind
    simp only [SchemaService.update, hnot, Bool.false_eq_true, if_false, exceptPureBind]
    rw [hfind]
    rfl
  · intro fields data
    induction fields with
    | nil => rfl
    | cons f rest ih =>
      by_cases hk : hasKey data f.name = true
      · rw [List.filter_cons, if_pos hk]
        cases hv : SchemaService.validateFieldRef db true data f with
        | error e =>
            rw [SchemaService.validateFieldRefList, SchemaService.validateFieldRefList, hv]
        | ok u =>
            rw [SchemaService.validateFieldRefList, SchemaService.validateFieldRefList, hv]
            exact ih
      · have hk2 : hasKey data f.name = false := by simpa using hk
        rw [List.filter_cons, if_neg (by simp [hk2])]
        rw [SchemaService.validateFieldRefList]
        have hskip : SchemaService.validateFieldRef db true data f = .ok () := by
          simp [SchemaService.validateFieldRef, hk2]
        rw [hskip]
        exact ih
  · intro data f mt0 x hty hmt hk hget hx hmc hex
    simp [SchemaService.validateFieldRef, hty, hmt, hk, hget, hx, hmc, hex,
      JSValue.truthy, JSValue.display, JSPrim.display]

/-- Claim C1 (witness): through SchemaService.update, a dangling cityId in
the payload fails with the Validation message naming it, while an update
supplying the identifier plus a name merges only the supplied fields after
stripping the identifier — the stored storeId stays "S1". -/
theorem c1_witness :
    SchemaService.update dbCityStore "store" "S1" [("cityId", jStr "ghost")] =
      .error (Err.badRequest (invalidReferenceMessage "ghost" "city"))
    ∧ SchemaService.update dbCityStore "store" "S1"
        [("storeId", jStr "HACK"), ("name", jStr "S Two")] =
      .ok (dbCityStoreUpdated, storeRecUpdated) := by
  obtain ⟨-, hsome1, -, -⟩ := c1_schema_update_pipeline dbCityStore "store" "S1"
    [("cityId", jStr "ghost")] (by rfl)
  obtain ⟨-, hsome2, -, -⟩ := c1_schema_update_pipeline dbCityStore "store" "S1"
    [("storeId", jStr "HACK"), ("name", jStr "S Two")] (by rfl)
  exact ⟨(hsome1 storeRec rfl).trans (by rfl), (hsome2 storeRec rfl).trans (by rfl)⟩
